import Mathlib

/-!
Shallow embedding of bin/partition_refs.py (ya16sdb).

The script loads a metadata table (one row per sequence record), runs an
ordered chain of optional pandas filters over it (OR-admit phase, AND-require
phase, deduplication, trusted re-insertion, species cap), then intersects the
result against a fasta file and writes both outputs.

Modelling conventions, traced from the pandas semantics the script relies on:
* a table is a list of (index label, record) pairs; read_feather yields a
  RangeIndex, and every pandas operation used by the script preserves the
  original labels of surviving rows;
* identifier-list files appear here already parsed (the set of stripped,
  non-comment, non-empty lines), as a List String;
* an optional numeric flag is tested with Python truthiness (if args.x:), so
  both None and 0 / 0.0 disable the stage;
* float arithmetic is modelled over the rationals; the only division the
  script performs is ambig_count / length on small non-negative integers, and
  a division by zero yields inf or NaN in pandas, both of which fail the
  subsequent less-or-equal comparison, so the zero-length case is modelled as
  an explicit false branch;
* trusted[~trusted.isin(info)] masks cells, it does not drop rows: with a
  boolean DataFrame argument, df[mask] is df.where(mask), and isin against a
  DataFrame compares cell-wise on matching index label and column.  Cells of
  a trusted row whose label survived filtering are equal to the corresponding
  info cells and become null; rows whose label was filtered out match nothing
  and are kept intact.  The masked table is then appended whole.  Records
  after this stage therefore live in an all-fields-nullable variant MRecord;
* groupby(by='species') uses the pandas default dropna, so rows with a null
  species key are excluded; nth(list(range(n))) keeps, per group, the rows at
  group positions 0..n-1, in original table order, and range(n) is empty for
  n <= 0;
* the fasta name-to-sequence mapping is a Python dict comprehension, so a
  repeated id keeps the last entry.
-/

namespace PartitionRefs

/-- One row of the metadata table, with the columns the script touches
(section 3 of the design: species is the only nullable column at load). -/
structure Record where
  seqname : String
  accession : String
  version : String
  tax_id : String
  species : Option String
  is_valid : Bool
  is_type : Bool
  is_out : Bool
  length : Nat
  ambig_count : Nat
  seqhash : String
deriving DecidableEq, Repr

/-- A row after the trusted-append stage: every cell may have been masked to
null by trusted[~trusted.isin(info)].  An originally null species and a masked
species cell are both NaN in pandas, hence one Option level. -/
structure MRecord where
  seqname : Option String
  accession : Option String
  version : Option String
  tax_id : Option String
  species : Option String
  is_valid : Option Bool
  is_type : Option Bool
  is_out : Option Bool
  length : Option Nat
  ambig_count : Option Nat
  seqhash : Option String
deriving DecidableEq, Repr

/-- Embed an intact record into the nullable row type. -/
def Record.toM (r : Record) : MRecord :=
  { seqname := some r.seqname
    accession := some r.accession
    version := some r.version
    tax_id := some r.tax_id
    species := r.species
    is_valid := some r.is_valid
    is_type := some r.is_type
    is_out := some r.is_out
    length := some r.length
    ambig_count := some r.ambig_count
    seqhash := some r.seqhash }

/-- The all-null row produced by masking a trusted row that survived
filtering. -/
def nullRow : MRecord :=
  { seqname := none, accession := none, version := none, tax_id := none
    species := none, is_valid := none, is_type := none, is_out := none
    length := none, ambig_count := none, seqhash := none }

/-- Table with pandas index labels (read_feather RangeIndex). -/
abbrev Table := List (Nat × Record)

/-- Table of nullable rows, after the trusted-append stage. -/
abbrev MTable := List (Nat × MRecord)

/-- Parsed command line of build_parser, identifier-list files already read:
None models an absent flag (and for numeric flags the stage also checks the
Python truthiness of the value). -/
structure Args where
  drop_duplicate_sequences : Bool
  is_valid : Bool
  trusted_taxids : Option (List String)
  do_not_trust : Option (List String)
  inliers : Bool
  is_species : Bool
  is_type : Bool
  min_length : Option Int
  prop_ambig_cutoff : Option ℚ
  species_cap : Option Int
  trusted : Option (List String)
deriving Repr

/-- Lines 83-92: the scratch keep column of one row, after the sequential
updates (initialised True; set False where not is_valid when --is_valid; set
True where tax_id is in the trusted-taxid set when supplied). -/
def orKeep (a : Args) (r : Record) : Bool :=
  let k := true
  let k := if a.is_valid && !r.is_valid then false else k
  let k :=
    match a.trusted_taxids with
    | some ids => if r.tax_id ∈ ids then true else k
    | none => k
  k

/-- Line 95: info = info[info.keep] (the keep column is then dropped, which
the record type never materialises). -/
def orPhase (a : Args) (info : Table) : Table :=
  info.filter (fun x => orKeep a x.2)

/-- Lines 97-98: if args.min_length: info = info[info.length >= min_length].
A value of 0 is falsy and disables the stage. -/
def applyMinLength : Option Int → Table → Table
  | none, t => t
  | some n, t => if n = 0 then t else t.filter (fun x => decide ((x.2.length : Int) ≥ n))

/-- Lines 102-104 for one row: ambig_count / length <= cutoff.  pandas division
by a zero length gives inf (or NaN for 0/0), and both fail the comparison, so
a zero-length row never passes. -/
def propAmbigPass (c : ℚ) (r : Record) : Bool :=
  if r.length = 0 then false
  else decide ((r.ambig_count : ℚ) / (r.length : ℚ) ≤ c)

/-- Lines 101-105: if args.prop_ambig_cutoff: compute the ratio column, filter,
drop the column.  A cutoff of 0.0 is falsy and disables the stage. -/
def applyPropAmbig : Option ℚ → Table → Table
  | none, t => t
  | some c, t => if c = 0 then t else t.filter (fun x => propAmbigPass c x.2)

/-- Lines 107-108: if args.is_type: info = info[info.is_type]. -/
def applyIsType (b : Bool) (t : Table) : Table :=
  if b then t.filter (fun x => x.2.is_type) else t

/-- Lines 110-111: if args.is_species: info = info[~info.species.isna()]. -/
def applyIsSpecies (b : Bool) (t : Table) : Table :=
  if b then t.filter (fun x => decide (x.2.species ≠ none)) else t

/-- Lines 113-114: if args.inliers: info = info[~info.is_out]. -/
def applyInliers (b : Bool) (t : Table) : Table :=
  if b then t.filter (fun x => !x.2.is_out) else t

/-- Lines 116-123: four sequential exclusions against the do-not-trust set. -/
def applyDoNotTrust : Option (List String) → Table → Table
  | none, t => t
  | some s, t =>
      ((((t.filter (fun x => decide (x.2.tax_id ∉ s))).filter
          (fun x => decide (x.2.accession ∉ s))).filter
          (fun x => decide (x.2.version ∉ s))).filter
          (fun x => decide (x.2.seqname ∉ s)))

/-- Lines 125-127: drop_duplicates(subset=[accession, seqhash], keep=first),
keeping the first row of each (accession, seqhash) key in table order. -/
def dropDupGo (seen : List (String × String)) : Table → Table
  | [] => []
  | x :: xs =>
      if (x.2.accession, x.2.seqhash) ∈ seen then dropDupGo seen xs
      else x :: dropDupGo ((x.2.accession, x.2.seqhash) :: seen) xs

/-- Lines 125-127, whole-table form. -/
def dropDuplicates (t : Table) : Table := dropDupGo [] t

/-- Lines 125-127 with the --drop-duplicate-sequences switch. -/
def dedupStage (b : Bool) (t : Table) : Table :=
  if b then dropDuplicates t else t

/-- The AND-require phase, lines 97-123, in source order (min-length,
prop-ambig, is_type, is_species, inliers, do-not-trust). -/
def andPhase (a : Args) (t : Table) : Table :=
  applyDoNotTrust a.do_not_trust
    (applyInliers a.inliers
      (applyIsSpecies a.is_species
        (applyIsType a.is_type
          (applyPropAmbig a.prop_ambig_cutoff
            (applyMinLength a.min_length t)))))

/-- Lines 78-81: the trusted sub-table, selected from the original unfiltered
table by version, accession or seqname membership in the --trusted list. -/
def trustedRows (recs : List String) (info : Table) : Table :=
  info.filter (fun x =>
    decide (x.2.version ∈ recs ∨ x.2.accession ∈ recs ∨ x.2.seqname ∈ recs))

/-- One cell of trusted.isin(info) followed by the where-mask: a cell is
nulled exactly when the info table holds an equal non-null value at the same
index label and column (NaN compares unequal to NaN, so a null cell stays
null). -/
def maskCell {α : Type} [DecidableEq α] (infoCell cell : Option α) : Option α :=
  match infoCell, cell with
  | some v, some w => if v = w then none else some w
  | _, _ => cell

/-- Row-wise form of trusted[~trusted.isin(info)] for a trusted row whose
index label is present in the filtered table: every matching cell is nulled. -/
def maskAgainst (infoRow row : MRecord) : MRecord :=
  { seqname := maskCell infoRow.seqname row.seqname
    accession := maskCell infoRow.accession row.accession
    version := maskCell infoRow.version row.version
    tax_id := maskCell infoRow.tax_id row.tax_id
    species := maskCell infoRow.species row.species
    is_valid := maskCell infoRow.is_valid row.is_valid
    is_type := maskCell infoRow.is_type row.is_type
    is_out := maskCell infoRow.is_out row.is_out
    length := maskCell infoRow.length row.length
    ambig_count := maskCell infoRow.ambig_count row.ambig_count
    seqhash := maskCell infoRow.seqhash row.seqhash }

/-- Lines 129-132: if args.trusted, mask the trusted sub-table against the
filtered table (cell-wise, aligned on index labels) and append the whole
masked result at the bottom.  Without the flag the table merely moves to the
nullable row type unchanged. -/
def trustedStage (a : Args) (info0 : Table) (filtered : Table) : MTable :=
  let filteredM : MTable := filtered.map (fun x => (x.1, x.2.toM))
  match a.trusted with
  | none => filteredM
  | some recs =>
      let trusted := trustedRows recs info0
      filteredM ++ trusted.map (fun x =>
        match filteredM.find? (fun y => y.1 == x.1) with
        | some y => (x.1, maskAgainst y.2 x.2.toM)
        | none => (x.1, x.2.toM))

/-- Lines 134-136, one pass: cnt carries the cumulative count of rows seen so
far per species key (the pandas cumcount); a row is kept when its species key
is non-null and its group position is below n (pandas groupby drops the null
key group; nth(list(range(n))) keeps group positions 0..n-1 in original
order, and range(n) is empty when n <= 0). -/
def groupbyNthGo (n : Int) (cnt : String → Nat) : MTable → MTable
  | [] => []
  | x :: xs =>
      match x.2.species with
      | none => groupbyNthGo n cnt xs
      | some s =>
          let cnt2 := fun q => if q = s then cnt s + 1 else cnt q
          if (cnt s : Int) < n then x :: groupbyNthGo n cnt2 xs
          else groupbyNthGo n cnt2 xs

/-- Lines 134-136: if args.species_cap: groupby(species).nth(range(cap)).
A cap of 0 is falsy and disables the stage. -/
def applySpeciesCap : Option Int → MTable → MTable
  | none, t => t
  | some n, t => if n = 0 then t else groupbyNthGo n (fun _ => 0) t

/-- Line 138: the fasta dict; a repeated id keeps the last entry. -/
def seqGet (seqs : List (String × String)) (s : String) : Option String :=
  (seqs.reverse.find? (fun p => p.1 == s)).map Prod.snd

/-- Dict lookup through a possibly-null seqname cell: NaN is never a dict
key, so a null name is never found. -/
def mGet (seqs : List (String × String)) : Option String → Option String
  | none => none
  | some s => seqGet seqs s

/-- Lines 140-150: walk the table in order, emitting a fasta record for each
seqname found in the mapping and collecting the missing names in drop; then
keep only the rows whose seqname is not in the drop set (Series.isin does
match a NaN name against a collected NaN).  Returns the final metadata table
and the emitted (name, sequence) list. -/
def reconcile (seqs : List (String × String)) (t : MTable) :
    MTable × List (String × String) :=
  let emitted := t.filterMap (fun x =>
    match x.2.seqname with
    | some s => (seqGet seqs s).map (fun q => (s, q))
    | none => none)
  let drop := (t.filter (fun x => (mGet seqs x.2.seqname).isNone)).map
    (fun x => x.2.seqname)
  (t.filter (fun x => decide (x.2.seqname ∉ drop)), emitted)

/-- Lines 83-127: OR-admit phase, AND-require phase, deduplication. -/
def pipelineFiltered (a : Args) (info : Table) : Table :=
  dedupStage a.drop_duplicate_sequences (andPhase a (orPhase a info))

/-- Lines 75-136: the whole filter pipeline, through trusted re-insertion and
the species cap. -/
def pipelineTable (a : Args) (info : Table) : MTable :=
  applySpeciesCap a.species_cap (trustedStage a info (pipelineFiltered a info))

/-- Lines 70-150 without the file system: the full run, yielding the final
metadata table and the emitted fasta records. -/
def runPartition (a : Args) (info : Table) (seqs : List (String × String)) :
    MTable × List (String × String) :=
  reconcile seqs (pipelineTable a info)

/-- Number of rows of a table whose species key equals s. -/
def spCount (s : String) (t : MTable) : Nat :=
  t.countP (fun x => x.2.species == some s)

/-- Amended species-cap claim, stated in its own words for comparison with
the code: walking the table in order, a row is kept exactly when its species
key is non-null and fewer than n rows with the same species occur before it
(so the null-species group is dropped, and each non-null group keeps its
first n rows in table order). -/
def nthSpecGo (n : Int) (pre : MTable) : MTable → MTable
  | [] => []
  | x :: xs =>
      match x.2.species with
      | none => nthSpecGo n (pre ++ [x]) xs
      | some s =>
          if (spCount s pre : Int) < n then x :: nthSpecGo n (pre ++ [x]) xs
          else nthSpecGo n (pre ++ [x]) xs

/-- Whole-table form of the amended species-cap claim. -/
def nthSpec (n : Int) (t : MTable) : MTable := nthSpecGo n [] t

/-- Concrete record used to build the example tables below. -/
def rBase : Record :=
  { seqname := "s1", accession := "a1", version := "v1", tax_id := "t1"
    species := some "sp1", is_valid := true, is_type := true, is_out := false
    length := 100, ambig_count := 0, seqhash := "h1" }

/-- Untrusted record that passes every filter. -/
def rX : Record :=
  { rBase with seqname := "sX", accession := "aX", version := "vX", seqhash := "hX" }

/-- Trusted record that also passes every filter. -/
def rT : Record :=
  { rBase with seqname := "sT", accession := "aT", version := "vT", seqhash := "hT" }

/-- A run with only --trusted supplied, listing the accession of rT. -/
def argsTrusted : Args :=
  { drop_duplicate_sequences := false, is_valid := false, trusted_taxids := none
    do_not_trust := none, inliers := false, is_species := false, is_type := false
    min_length := none, prop_ambig_cutoff := none, species_cap := none
    trusted := some ["aT"] }

/-- Two-row table for the trusted-append runs: both rows survive filtering. -/
def tblTrusted : Table := [(0, rX), (1, rT)]

/-- Species-cap example rows A, B, C (species 1), D (species 2), E (null). -/
def rA : Record := { rBase with seqname := "sA", accession := "aA", species := some "1" }

/-- Species 1 example row B. -/
def rB : Record := { rBase with seqname := "sB", accession := "aB", species := some "1" }

/-- Species 1 example row C. -/
def rC : Record := { rBase with seqname := "sC", accession := "aC", species := some "1" }

/-- Species 2 example row D. -/
def rD : Record := { rBase with seqname := "sD", accession := "aD", species := some "2" }

/-- Null-species example row E. -/
def rE : Record := { rBase with seqname := "sE", accession := "aE", species := none }

/-- The {A, B, C, D} table of the species-cap example. -/
def tblABCD : MTable := [(0, rA.toM), (1, rB.toM), (2, rC.toM), (3, rD.toM)]

/-- The species-cap example table extended with a null-species row. -/
def tblABCDE : MTable :=
  [(0, rA.toM), (1, rB.toM), (2, rC.toM), (3, rD.toM), (4, rE.toM)]

/-- Record with no ambiguous characters out of 10. -/
def rAmb0 : Record := { rBase with seqname := "s40", length := 10, ambig_count := 0 }

/-- Record with one ambiguous character out of 10. -/
def rAmb1 : Record := { rBase with seqname := "s41", length := 10, ambig_count := 1 }

/-- Table for the ambiguity-cutoff boundary check. -/
def tblAmbig : Table := [(0, rAmb0), (1, rAmb1)]

/-- Zero-length record for the zero-length ambiguity policy. -/
def rZero : Record := { rBase with seqname := "s50", length := 0, ambig_count := 0 }

/-- Record with is_valid false and a trusted tax id. -/
def rUntrustedValid : Record :=
  { rBase with seqname := "s10", accession := "a10", is_valid := false, tax_id := "t9" }

/-- Valid record shorter than the example minimum length. -/
def rShort : Record :=
  { rBase with seqname := "s11", accession := "a11", is_valid := true, length := 10 }

/-- A run with --is_valid, a trusted-taxid list holding t9, and
--min-length 50. -/
def argsOrAnd : Args :=
  { drop_duplicate_sequences := false, is_valid := true
    trusted_taxids := some ["t9"], do_not_trust := none, inliers := false
    is_species := false, is_type := false, min_length := some 50
    prop_ambig_cutoff := none, species_cap := none, trusted := none }

/-- A run whose only filter flag is the out-of-range --min-length -5. -/
def argsNegLen : Args :=
  { drop_duplicate_sequences := false, is_valid := false, trusted_taxids := none
    do_not_trust := none, inliers := false, is_species := false, is_type := false
    min_length := some (-5), prop_ambig_cutoff := none, species_cap := none
    trusted := none }

/-- Record of length 7 for the out-of-range run. -/
def rLen7 : Record := { rBase with seqname := "s90", length := 7 }

/-- One-row table for the out-of-range run. -/
def tblNegLen : Table := [(0, rLen7)]

/-- Sequence store holding the one record of tblNegLen. -/
def seqsNegLen : List (String × String) := [("s90", "ACGT")]

end PartitionRefs

namespace PartitionRefs

/-! Stage monotonicity: every AND-phase stage returns a sublist of its input,
so membership after a later stage implies membership after an earlier one. -/

theorem applyMinLength_sublist (ml : Option Int) (t : Table) :
    List.Sublist (applyMinLength ml t) t := by
  cases ml with
  | none => exact List.Sublist.refl t
  | some n =>
      simp only [applyMinLength]
      split
      · exact List.Sublist.refl t
      · exact List.filter_sublist t

theorem applyPropAmbig_sublist (c : Option ℚ) (t : Table) :
    List.Sublist (applyPropAmbig c t) t := by
  cases c with
  | none => exact List.Sublist.refl t
  | some c =>
      simp only [applyPropAmbig]
      split
      · exact List.Sublist.refl t
      · exact List.filter_sublist t

theorem applyIsType_sublist (b : Bool) (t : Table) :
    List.Sublist (applyIsType b t) t := by
  unfold applyIsType
  split
  · exact List.filter_sublist t
  · exact List.Sublist.refl t

theorem applyIsSpecies_sublist (b : Bool) (t : Table) :
    List.Sublist (applyIsSpecies b t) t := by
  unfold applyIsSpecies
  split
  · exact List.filter_sublist t
  · exact List.Sublist.refl t

theorem applyInliers_sublist (b : Bool) (t : Table) :
    List.Sublist (applyInliers b t) t := by
  unfold applyInliers
  split
  · exact List.filter_sublist t
  · exact List.Sublist.refl t

theorem applyDoNotTrust_sublist (d : Option (List String)) (t : Table) :
    List.Sublist (applyDoNotTrust d t) t := by
  cases d with
  | none => exact List.Sublist.refl t
  | some s =>
      exact (List.filter_sublist _).trans ((List.filter_sublist _).trans
        ((List.filter_sublist _).trans (List.filter_sublist _)))

theorem andPhase_sublist_minLength (a : Args) (t : Table) :
    List.Sublist (andPhase a t) (applyMinLength a.min_length t) := by
  unfold andPhase
  exact (applyDoNotTrust_sublist _ _).trans ((applyInliers_sublist _ _).trans
    ((applyIsSpecies_sublist _ _).trans ((applyIsType_sublist _ _).trans
      (applyPropAmbig_sublist _ _))))

/-- C1: a record with is_valid false whose tax id is in the supplied
trusted-taxid set survives the OR-admit phase, while a record with is_valid
true whose length is below a supplied min-length does not survive the
AND-require phase. -/
theorem C1_or_and_composition (a : Args) (info t : Table) (i j : Nat)
    (r q : Record) (ids : List String) (n : Int)
    (hmem : (i, r) ∈ info) (_hrv : r.is_valid = false)
    (hids : a.trusted_taxids = some ids) (hin : r.tax_id ∈ ids)
    (_hqv : q.is_valid = true) (hn : a.min_length = some n)
    (hlen : (q.length : Int) < n) :
    (i, r) ∈ orPhase a info ∧ (j, q) ∉ andPhase a t := by
  constructor
  · apply List.mem_filter.mpr
    refine ⟨hmem, ?_⟩
    simp [orKeep, hids, hin]
  · intro hand
    have hml : (j, q) ∈ applyMinLength a.min_length t :=
      (andPhase_sublist_minLength a t).subset hand
    rw [hn] at hml
    have hn0 : ¬n = 0 := by omega
    simp only [applyMinLength, if_neg hn0] at hml
    have hp := (List.mem_filter.mp hml).2
    rw [decide_eq_true_eq] at hp
    have hp2 : (q.length : Int) ≥ n := hp
    omega


/-- C2: evaluation of the pipeline at a run where the trusted record rT
survives every filter: trusted[~trusted.isin(info)] null-masks the matching
cells instead of excluding the row, so an all-null copy of rT is appended a
second time, sharing index label 1. -/
theorem C2_code_eval :
    pipelineTable argsTrusted tblTrusted =
      [(0, rX.toM), (1, rT.toM), (1, nullRow)] := by decide

/-- C7: at the same failing run the table produced by the pipeline contains
a created all-null row; the loaded table holds exactly the rows rX and rT
and neither of them is the all-null row, so a row was created with altered
attribute values. -/
theorem C7_code_eval :
    (1, nullRow) ∈ pipelineTable argsTrusted tblTrusted ∧
    tblTrusted = [(0, rX), (1, rT)] ∧
    Record.toM rX ≠ nullRow ∧ Record.toM rT ≠ nullRow := by decide

/-- C1 witness at a concrete run. -/
theorem C1_witness :
    (0, rUntrustedValid) ∈ orPhase argsOrAnd [(0, rUntrustedValid)] ∧
    (1, rShort) ∉ andPhase argsOrAnd [(1, rShort)] :=
  C1_or_and_composition argsOrAnd [(0, rUntrustedValid)] [(1, rShort)] 0 1
    rUntrustedValid rShort ["t9"] 50 (by decide) (by decide) (by decide)
    (by decide) (by decide) (by decide) (by decide)


/-- The cumulative per-species counter of groupbyNthGo tracks the number of
occurrences of each species in the processed part of the table. -/
theorem groupbyNthGo_eq_nthSpecGo (n : Int) :
    ∀ (xs : MTable) (cnt : String → Nat) (pre : MTable),
      (∀ s, cnt s = spCount s pre) →
      groupbyNthGo n cnt xs = nthSpecGo n pre xs := by
  intro xs
  induction xs with
  | nil => intro cnt pre h; rfl
  | cons x xs ih =>
      intro cnt pre h
      unfold groupbyNthGo nthSpecGo
      cases hx : x.2.species with
      | none =>
          dsimp only
          apply ih
          intro s
          simp [spCount, h s, List.countP_append, List.countP_cons,
            List.countP_nil, hx]
      | some s =>
          dsimp only
          have hupd : ∀ q, (fun q => if q = s then cnt s + 1 else cnt q) q =
              spCount q (pre ++ [x]) := by
            intro q
            by_cases hq : q = s
            · subst hq
              simp [spCount, List.countP_append, List.countP_cons,
                List.countP_nil, hx, h q]
            · have hne : (x.2.species == some q) = false := by
                rw [hx]
                simp [Ne.symm hq]
              simp [spCount, List.countP_append, List.countP_cons,
                List.countP_nil, hne, h q, hq]
          by_cases hlt : ((cnt s : Nat) : Int) < n
          · rw [if_pos hlt,
              if_pos (show ((spCount s pre : Nat) : Int) < n by
                rw [← h s]; exact hlt)]
            exact congrArg (x :: ·) (ih _ _ hupd)
          · rw [if_neg hlt,
              if_neg (show ¬((spCount s pre : Nat) : Int) < n by
                rw [← h s]; exact hlt)]
            exact ih _ _ hupd

/-- C3 amended: with a truthy species cap, the species-cap stage keeps, per
non-null species group, exactly the first n rows in table order, and drops
every null-species row (the null group is excluded by the pandas groupby). -/
theorem C3_species_cap_amended (n : Int) (t : MTable) (h : n ≠ 0) :
    applySpeciesCap (some n) t = nthSpec n t := by
  simp only [applySpeciesCap, if_neg h]
  exact groupbyNthGo_eq_nthSpecGo n t (fun _ => 0) [] (fun s => rfl)

/-- C3 counterexample: the null-species row E forms a group with fewer than
two rows, yet species-cap 2 removes it, contradicting the claim that the
null-species group is capped like any other group. -/
theorem C3_counterexample :
    (4, rE.toM) ∉ applySpeciesCap (some 2) tblABCDE := by decide

/-- C3 witness: species-cap 2 on the {A, B, C, D} example keeps exactly
A, B, D. -/
theorem C3_witness :
    applySpeciesCap (some 2) tblABCD = [(0, rA.toM), (1, rB.toM), (3, rD.toM)] :=
  (C3_species_cap_amended 2 tblABCD (by decide)).trans (by decide)


/-- C4 counterexample: with --prop-ambig-cutoff 0.0 supplied, the record
with one ambiguous character out of ten is not removed, because 0.0 is falsy
and the whole ambiguity stage is skipped. -/
theorem C4_counterexample :
    (1, rAmb1) ∈ applyPropAmbig (some 0) tblAmbig := by decide

/-- C4 amended: a supplied cutoff of 0.0 disables the ambiguity filter
entirely, so every record, with or without ambiguous characters, survives
it. -/
theorem C4_cutoff_zero_amended (t : Table) : applyPropAmbig (some 0) t = t := by
  simp [applyPropAmbig]

/-- C5: under an active (truthy) ambiguity cutoff the zero-length record is
deterministically excluded by the filter stage; the stage is a total
function, mirroring that the pandas division yields inf or NaN rather than
raising, and both fail the cutoff comparison. -/
theorem C5_zero_length_excluded (c : ℚ) (t : Table) (i : Nat) (r : Record)
    (hc : c ≠ 0) (hr : r.length = 0) :
    (i, r) ∉ applyPropAmbig (some c) t := by
  simp only [applyPropAmbig, if_neg hc]
  intro hmem
  have hp := (List.mem_filter.mp hmem).2
  simp [propAmbigPass, hr] at hp

/-- C5 witness: the zero-length record is excluded at the active cutoff
1/2. -/
theorem C5_witness :
    ((1 : ℚ)/2 ≠ 0) ∧ (0, rZero) ∉ applyPropAmbig (some (1/2)) [(0, rZero)] :=
  ⟨by norm_num,
   C5_zero_length_excluded (1/2) [(0, rZero)] 0 rZero (by norm_num) rfl⟩

/-- A name is among the seqnames of the reconciled metadata table exactly
when a fasta record with that name was emitted. -/
theorem reconcile_consistent (seqs : List (String × String)) (t : MTable)
    (s : String) :
    (∃ x ∈ (reconcile seqs t).1, x.2.seqname = some s) ↔
      (∃ q, (s, q) ∈ (reconcile seqs t).2) := by
  unfold reconcile
  constructor
  · rintro ⟨x, hx, hname⟩
    rw [List.mem_filter] at hx
    obtain ⟨hxt, hnd⟩ := hx
    rw [decide_eq_true_eq] at hnd
    cases hget : seqGet seqs s with
    | none =>
        exfalso
        apply hnd
        apply List.mem_map.mpr
        refine ⟨x, ?_, rfl⟩
        rw [List.mem_filter]
        refine ⟨hxt, ?_⟩
        rw [hname]
        simp [mGet, hget]
    | some q =>
        refine ⟨q, ?_⟩
        apply List.mem_filterMap.mpr
        refine ⟨x, hxt, ?_⟩
        rw [hname]
        simp [hget]
  · rintro ⟨q, hq⟩
    rw [List.mem_filterMap] at hq
    obtain ⟨x, hxt, hfx⟩ := hq
    cases hname : x.2.seqname with
    | none =>
        rw [hname] at hfx
        simp at hfx
    | some s0 =>
        rw [hname] at hfx
        simp only [Option.map_eq_some'] at hfx
        obtain ⟨q0, hget, heq⟩ := hfx
        have hs : s0 = s := congrArg Prod.fst heq
        subst hs
        refine ⟨x, ?_, hname⟩
        rw [List.mem_filter]
        refine ⟨hxt, ?_⟩
        rw [decide_eq_true_eq]
        intro hdrop
        rw [List.mem_map] at hdrop
        obtain ⟨y, hy, hyname⟩ := hdrop
        rw [List.mem_filter] at hy
        obtain ⟨hyt, hyget⟩ := hy
        rw [hyname, hname] at hyget
        simp [mGet, hget] at hyget


/-- C6: in every run, a name occurs among the seqnames of the final metadata
table exactly when a fasta record with that name was emitted, so the two
outputs carry the same set of names. -/
theorem C6_outputs_consistent (a : Args) (info : Table)
    (seqs : List (String × String)) (s : String) :
    (∃ x ∈ (runPartition a info seqs).1, x.2.seqname = some s) ↔
      (∃ q, (s, q) ∈ (runPartition a info seqs).2) :=
  reconcile_consistent seqs (pipelineTable a info) s

/-- One application of the keep-first deduplication pass absorbs a second
one, for any starting set of already-seen keys. -/
theorem dropDupGo_idem (t : Table) :
    ∀ (seen : List (String × String)),
      dropDupGo seen (dropDupGo seen t) = dropDupGo seen t := by
  induction t with
  | nil => intro seen; rfl
  | cons x xs ih =>
      intro seen
      by_cases h : (x.2.accession, x.2.seqhash) ∈ seen
      · simp only [dropDupGo, if_pos h]
        exact ih seen
      · simp only [dropDupGo, if_neg h]
        rw [ih ((x.2.accession, x.2.seqhash) :: seen)]

/-- C8: the accession+seqhash deduplication (keep the first row per key in
table order) is idempotent: a second application removes no further rows. -/
theorem C8_dedup_idempotent (t : Table) :
    dropDuplicates (dropDuplicates t) = dropDuplicates t :=
  dropDupGo_idem t []

/-- C9 counterexample: with the out-of-range value --min-length -5 the run
is not rejected and no configuration error is raised: it completes and
writes the record to both the metadata and the sequence output. -/
theorem C9_counterexample :
    runPartition argsNegLen tblNegLen seqsNegLen =
      ([(0, rLen7.toM)], [("s90", "ACGT")]) := by decide

/-- C9 amended: out-of-range numeric parameters are applied literally with
no detection or report: a negative min-length keeps every row (lengths are
non-negative), and a negative ambiguity cutoff removes every row. -/
theorem C9_amended (t : Table) (n : Int) (c : ℚ) :
    (n < 0 → applyMinLength (some n) t = t) ∧
    (c < 0 → applyPropAmbig (some c) t = []) := by
  constructor
  · intro hn
    simp only [applyMinLength, if_neg (show ¬n = 0 by omega)]
    apply List.filter_eq_self.mpr
    intro x hx
    rw [decide_eq_true_eq]
    have : (0 : Int) ≤ (x.2.length : Int) := Int.natCast_nonneg _
    omega
  · intro hc
    have hc0 : ¬c = 0 := by
      intro h
      rw [h] at hc
      exact lt_irrefl 0 hc
    simp only [applyPropAmbig, if_neg hc0]
    apply List.eq_nil_iff_forall_not_mem.mpr
    intro x hx
    rw [List.mem_filter] at hx
    obtain ⟨hxt, hpass⟩ := hx
    unfold propAmbigPass at hpass
    by_cases h0 : x.2.length = 0
    · rw [if_pos h0] at hpass
      exact Bool.false_ne_true hpass
    · rw [if_neg h0, decide_eq_true_eq] at hpass
      have hnn : (0 : ℚ) ≤ (x.2.ambig_count : ℚ) / (x.2.length : ℚ) :=
        div_nonneg (Nat.cast_nonneg _) (Nat.cast_nonneg _)
      linarith

/-- C9 witness for the amended statement, at concrete out-of-range values. -/
theorem C9_witness :
    applyMinLength (some (-5)) tblNegLen = tblNegLen ∧
    applyPropAmbig (some (-1)) tblNegLen = [] :=
  ⟨(C9_amended tblNegLen (-5) (-1)).1 (by norm_num),
   (C9_amended tblNegLen (-5) (-1)).2 (by norm_num)⟩

/-- C10: --min-length 0 is falsy, so the whole run behaves exactly as if the
flag were omitted; in particular the length filter removes nothing, not even
a zero-length record. -/
theorem C10_min_length_zero (a : Args) (info : Table)
    (seqs : List (String × String)) :
    runPartition { a with min_length := some 0 } info seqs =
      runPartition { a with min_length := none } info seqs := rfl

end PartitionRefs
